import Mathlib

/-!
Verification of the study-sync daemon's core against its specification.

The definitions below are shallow embeddings of the Rust sources:
  - `src/internal/channel.rs` (the priority-retry channel `PriorityRetryChannel::run`),
  - `src/orchestrator.rs` (the `GameEnded` arm, `set_current_play`, `playing`),
  - `src/intake.rs` (the `SubmitFull` arm of `Intake::start`),
  - `src/database.rs` (`Database::load_intake_backlog`),
  - `src/internal/fs.rs` (`full_extension`),
  - `src/internal/uploader.rs` / `src/screenshots.rs` (`upload_path_to_directory`,
    `Online::observed_is_online` / `observed_error`).

Async loops are modelled as step functions over explicit state; channel receives,
timer expiry and network results are oracle inputs to the step.
-/

namespace StudySync

/-- Handler actions of the priority-retry channel (enum `Action` in channel.rs). -/
inductive Action
  | Continue
  | ResetTimeout
  | Halt
  | Retry
deriving DecidableEq, Repr

/-- Seconds base used when the component believes it is online (channel.rs: `online_secs = 5`). -/
def online_secs : Nat := 5

/-- Seconds base used when the component believes it is offline (channel.rs: `offline_secs = 30`). -/
def offline_secs : Nat := 30

/-- The capability set a component plugs into the channel:
`is_online`, `is_high_priority` and the event handler (trait methods in channel.rs).
The handler is modelled as a pure function from component state and event to an
action and an updated component state. -/
structure Handlers (E S : Type) where
  is_online : S → Bool
  is_high_priority : E → Bool
  handle : S → E → Action × S

/-- The loop-local state of `PriorityRetryChannel::run`: the retry deadline pair
(absolute online/offline deadlines), the FIFO buffer, the current priority event,
the two retry counters, the component state, and whether the loop has exited. -/
structure ChanState (E S : Type) where
  retry_deadline : Option (Nat × Nat)
  buffer : List E
  priority_event : Option E
  priority_retry : Option Nat
  normal_retry : Option Nat
  comp : S
  halted : Bool
deriving DecidableEq, Repr

/-- Outcome of one channel receive, fed to a step as an oracle: an event arrived,
the retry deadline expired (`timeout_at` returned `Err`), the queue was polled
empty (`try_recv` returned `Empty`), or the sender side is gone. -/
inductive Recv (E : Type)
  | arrived (e : E)
  | expired
  | empty
  | closed
deriving DecidableEq, Repr

/-- Oracle inputs for one step: the receive outcome, the seconds elapsed since the
component started (`start.elapsed().as_secs()`), and the absolute current time in
seconds (`Instant::now()`), used as the base of retry deadlines. -/
structure StepIn (E : Type) where
  recv : Recv E
  elapsed : Nat
  now : Nat
deriving DecidableEq, Repr

/-- Observable record of one step: which event the handler was invoked on, what
action it returned, how long the step slept before re-arming a priority retry,
and which absolute deadline the step blocked on when waiting out a normal retry. -/
structure StepOut (E : Type) where
  handled : Option E
  action : Option Action
  slept : Option Nat
  waiting_until : Option Nat
deriving DecidableEq, Repr

/-- Empty step record for branches that invoke no handler. -/
def noStep {E : Type} : StepOut E := ⟨none, none, none, none⟩

/-- Retry counter bump, exactly as written at each `Action::Retry` site of
channel.rs: the stored counter is incremented without a cap, while the value used
for the wait is capped at 5 (`if r > 5 \x7b 5 \x7d else \x7b r \x7d`). Returns
(used value, stored counter). -/
def bump_retries : Option Nat → Nat × Option Nat
  | some r => (if r + 1 > 5 then 5 else r + 1, some (r + 1))
  | none => (1, some 1)

/-- The consecutive-retry ordinal: 1 on the first retry, previous + 1 afterwards. -/
def next_retry_count : Option Nat → Nat
  | some r => r + 1
  | none => 1

/-- Handling of the stored priority event at the top of the loop
(channel.rs lines 41-77). On `Retry` the loop sleeps for
`min(start.elapsed(), retries * base)` seconds and keeps the event in the
priority slot; otherwise the slot clears, and `ResetTimeout` also clears the
normal retry counter. -/
def priority_phase {E S : Type} (H : Handlers E S) (c : ChanState E S) (i : StepIn E) (e : E) :
    ChanState E S × StepOut E :=
  match H.handle c.comp e with
  | (Action.Continue, s) =>
    ({ c with comp := s, priority_retry := none, priority_event := none },
     ⟨some e, some Action.Continue, none, none⟩)
  | (Action.ResetTimeout, s) =>
    ({ c with comp := s, priority_retry := none, priority_event := none, normal_retry := none },
     ⟨some e, some Action.ResetTimeout, none, none⟩)
  | (Action.Halt, s) =>
    ({ c with comp := s, halted := true }, ⟨some e, some Action.Halt, none, none⟩)
  | (Action.Retry, s) =>
    let used := (bump_retries c.priority_retry).1
    let wait := min i.elapsed (used * (if H.is_online s then online_secs else offline_secs))
    ({ c with
        comp := s,
        priority_retry := (bump_retries c.priority_retry).2,
        priority_event := some e },
     ⟨some e, some Action.Retry, some wait, none⟩)

/-- Dispatch of a freshly received event (channel.rs lines 109-146): a
high-priority event is handed to the handler immediately; on `Retry` the loop
sleeps as in `priority_phase` and stores the event in the priority slot. A
normal-priority event is pushed to the back of the buffer. `wu` records the
deadline this step had been blocking on, for the step record only. -/
def dispatch_arrival {E S : Type} (H : Handlers E S) (c : ChanState E S) (i : StepIn E) (e : E)
    (wu : Option Nat) : ChanState E S × StepOut E :=
  if H.is_high_priority e then
    match H.handle c.comp e with
    | (Action.Continue, s) =>
      ({ c with comp := s, priority_retry := none },
       ⟨some e, some Action.Continue, none, wu⟩)
    | (Action.ResetTimeout, s) =>
      ({ c with comp := s, priority_retry := none, normal_retry := none },
       ⟨some e, some Action.ResetTimeout, none, wu⟩)
    | (Action.Halt, s) =>
      ({ c with comp := s, halted := true }, ⟨some e, some Action.Halt, none, wu⟩)
    | (Action.Retry, s) =>
      let used := (bump_retries c.priority_retry).1
      let wait := min i.elapsed (used * (if H.is_online s then online_secs else offline_secs))
      ({ c with
          comp := s,
          priority_retry := (bump_retries c.priority_retry).2,
          priority_event := some e },
       ⟨some e, some Action.Retry, some wait, wu⟩)
  else
    ({ c with buffer := c.buffer ++ [e] }, ⟨none, none, none, wu⟩)

/-- Handling of the front-of-buffer event when no event arrived
(channel.rs lines 147-185). On `Retry` the event is pushed back to the front and
a deadline pair `(now + min(elapsed, retries * 5), now + min(elapsed, retries * 30))`
is armed. `Continue` and `ResetTimeout` both clear the normal retry counter. -/
def handle_front {E S : Type} (H : Handlers E S) (c : ChanState E S) (i : StepIn E)
    (wu : Option Nat) : ChanState E S × StepOut E :=
  match c.buffer with
  | [] => (c, ⟨none, none, none, wu⟩)
  | f :: rest =>
    match H.handle c.comp f with
    | (Action.Continue, s) =>
      ({ c with comp := s, buffer := rest, normal_retry := none },
       ⟨some f, some Action.Continue, none, wu⟩)
    | (Action.ResetTimeout, s) =>
      ({ c with comp := s, buffer := rest, normal_retry := none },
       ⟨some f, some Action.ResetTimeout, none, wu⟩)
    | (Action.Halt, s) =>
      ({ c with comp := s, buffer := rest, halted := true },
       ⟨some f, some Action.Halt, none, wu⟩)
    | (Action.Retry, s) =>
      let used := (bump_retries c.normal_retry).1
      let don := min i.elapsed (used * online_secs)
      let doff := min i.elapsed (used * offline_secs)
      ({ c with
          comp := s,
          normal_retry := (bump_retries c.normal_retry).2,
          retry_deadline := some (i.now + don, i.now + doff) },
       ⟨some f, some Action.Retry, none, wu⟩)

/-- The deadline actually waited on when a retry deadline pair is armed
(channel.rs lines 86-90): the online deadline when `is_online()`, else the
offline one. -/
def chosen_deadline {E S : Type} (H : Handlers E S) (c : ChanState E S) (d : Nat × Nat) : Nat :=
  if H.is_online c.comp then d.1 else d.2

/-- One iteration of `PriorityRetryChannel::run`, split at its suspension points.
A stored priority event is handled first (its `Retry` path loops back to this
phase via `continue`). Otherwise the receive phase runs: with an empty buffer the
loop blocks on the channel; with a non-empty buffer and an armed deadline it
blocks with a timeout on the chosen deadline; otherwise it polls. An arrived
event is dispatched (high-priority events preempt), and when no event was
produced the front buffered event is handled. -/
def step {E S : Type} (H : Handlers E S) (c : ChanState E S) (i : StepIn E) :
    ChanState E S × StepOut E :=
  if c.halted then (c, noStep)
  else
    match c.priority_event with
    | some e => priority_phase H c i e
    | none =>
      match c.buffer, c.retry_deadline, i.recv with
      | [], _, Recv.arrived e => dispatch_arrival H c i e none
      | [], _, _ => (c, noStep)
      | _ :: _, some d, Recv.arrived e => dispatch_arrival H c i e (some (chosen_deadline H c d))
      | _ :: _, some d, Recv.expired =>
        handle_front H { c with retry_deadline := none } i (some (chosen_deadline H c d))
      | _ :: _, some d, Recv.closed => handle_front H c i (some (chosen_deadline H c d))
      | _ :: _, some _, Recv.empty => (c, noStep)
      | _ :: _, none, Recv.arrived e => dispatch_arrival H c i e none
      | _ :: _, none, Recv.empty => handle_front H c i none
      | _ :: _, none, Recv.closed => ({ c with halted := true }, noStep)
      | _ :: _, none, Recv.expired => (c, noStep)

/-- The state the loop starts in (channel.rs lines 30-35): no deadline, empty
buffer, no priority event, both counters clear. -/
def init_state {E S : Type} (s : S) : ChanState E S :=
  ⟨none, [], none, none, none, s, false⟩

/-- States the channel loop can reach from its initial state. -/
inductive Reachable {E S : Type} (H : Handlers E S) : ChanState E S → Prop
  | base (s : S) : Reachable H (init_state s)
  | next (c : ChanState E S) (i : StepIn E) : Reachable H c → Reachable H (step H c i).1

section ChannelLemmas

variable {E S : Type} (H : Handlers E S) (c : ChanState E S) (i : StepIn E)

lemma bump_used_eq (o : Option Nat) : (bump_retries o).1 = min (next_retry_count o) 5 := by
  cases o with
  | none => simp [bump_retries, next_retry_count]
  | some r =>
    simp only [bump_retries, next_retry_count]
    split <;> omega

lemma step_halted (hh : c.halted = true) : step H c i = (c, noStep) := by
  simp [step, hh]

lemma step_priority {e : E} (hh : c.halted = false) (hp : c.priority_event = some e) :
    step H c i = priority_phase H c i e := by
  simp [step, hh, hp]

lemma step_arrived_nil {e : E} (hh : c.halted = false) (hp : c.priority_event = none)
    (hb : c.buffer = []) (hr : i.recv = Recv.arrived e) :
    step H c i = dispatch_arrival H c i e none := by
  simp [step, hh, hp, hb, hr]

lemma step_nil_stutter (hh : c.halted = false) (hp : c.priority_event = none)
    (hb : c.buffer = [])
    (hr : i.recv = Recv.expired ∨ i.recv = Recv.empty ∨ i.recv = Recv.closed) :
    step H c i = (c, noStep) := by
  rcases hr with hr | hr | hr <;> simp [step, hh, hp, hb, hr]

lemma step_arrived_dl {e f : E} {rest : List E} {d : Nat × Nat} (hh : c.halted = false)
    (hp : c.priority_event = none) (hb : c.buffer = f :: rest)
    (hd : c.retry_deadline = some d) (hr : i.recv = Recv.arrived e) :
    step H c i = dispatch_arrival H c i e (some (chosen_deadline H c d)) := by
  simp [step, hh, hp, hb, hd, hr]

lemma step_expired_dl {f : E} {rest : List E} {d : Nat × Nat} (hh : c.halted = false)
    (hp : c.priority_event = none) (hb : c.buffer = f :: rest)
    (hd : c.retry_deadline = some d) (hr : i.recv = Recv.expired) :
    step H c i = handle_front H { c with retry_deadline := none } i
      (some (chosen_deadline H c d)) := by
  simp [step, hh, hp, hb, hd, hr]

lemma step_closed_dl {f : E} {rest : List E} {d : Nat × Nat} (hh : c.halted = false)
    (hp : c.priority_event = none) (hb : c.buffer = f :: rest)
    (hd : c.retry_deadline = some d) (hr : i.recv = Recv.closed) :
    step H c i = handle_front H c i (some (chosen_deadline H c d)) := by
  simp [step, hh, hp, hb, hd, hr]

lemma step_empty_dl {f : E} {rest : List E} {d : Nat × Nat} (hh : c.halted = false)
    (hp : c.priority_event = none) (hb : c.buffer = f :: rest)
    (hd : c.retry_deadline = some d) (hr : i.recv = Recv.empty) :
    step H c i = (c, noStep) := by
  simp [step, hh, hp, hb, hd, hr]

lemma step_arrived_nodl {e f : E} {rest : List E} (hh : c.halted = false)
    (hp : c.priority_event = none) (hb : c.buffer = f :: rest)
    (hd : c.retry_deadline = none) (hr : i.recv = Recv.arrived e) :
    step H c i = dispatch_arrival H c i e none := by
  simp [step, hh, hp, hb, hd, hr]

lemma step_empty_nodl {f : E} {rest : List E} (hh : c.halted = false)
    (hp : c.priority_event = none) (hb : c.buffer = f :: rest)
    (hd : c.retry_deadline = none) (hr : i.recv = Recv.empty) :
    step H c i = handle_front H c i none := by
  simp [step, hh, hp, hb, hd, hr]

lemma step_closed_nodl {f : E} {rest : List E} (hh : c.halted = false)
    (hp : c.priority_event = none) (hb : c.buffer = f :: rest)
    (hd : c.retry_deadline = none) (hr : i.recv = Recv.closed) :
    step H c i = ({ c with halted := true }, noStep) := by
  simp [step, hh, hp, hb, hd, hr]

lemma step_expired_nodl {f : E} {rest : List E} (hh : c.halted = false)
    (hp : c.priority_event = none) (hb : c.buffer = f :: rest)
    (hd : c.retry_deadline = none) (hr : i.recv = Recv.expired) :
    step H c i = (c, noStep) := by
  simp [step, hh, hp, hb, hd, hr]

lemma priority_phase_retry {e : E} {s : S} (hha : H.handle c.comp e = (Action.Retry, s)) :
    (priority_phase H c i e).2.slept =
      some (min i.elapsed (min (next_retry_count c.priority_retry) 5 *
        (if H.is_online s then online_secs else offline_secs))) := by
  simp only [priority_phase, hha, bump_used_eq]

lemma priority_phase_slept_le {e : E} {w : Nat}
    (hw : (priority_phase H c i e).2.slept = some w) : w ≤ i.elapsed := by
  unfold priority_phase at hw
  rcases hha : H.handle c.comp e with ⟨a, s⟩
  rw [hha] at hw
  cases a <;> simp at hw
  omega

lemma dispatch_arrival_high {e : E} {wu : Option Nat} (h : H.is_high_priority e = true) :
    (dispatch_arrival H c i e wu).2.handled = some e ∧
      (dispatch_arrival H c i e wu).1.buffer = c.buffer := by
  unfold dispatch_arrival
  rw [h]
  rcases hha : H.handle c.comp e with ⟨a, s⟩
  cases a <;> simp [hha]

lemma dispatch_arrival_low {e : E} {wu : Option Nat} (h : H.is_high_priority e = false) :
    (dispatch_arrival H c i e wu).2.handled = none ∧
      (dispatch_arrival H c i e wu).1.buffer = c.buffer ++ [e] := by
  unfold dispatch_arrival
  rw [h]
  simp

lemma dispatch_arrival_retry {e : E} {s : S} {wu : Option Nat}
    (hhigh : H.is_high_priority e = true) (hha : H.handle c.comp e = (Action.Retry, s)) :
    (dispatch_arrival H c i e wu).2.slept =
      some (min i.elapsed (min (next_retry_count c.priority_retry) 5 *
        (if H.is_online s then online_secs else offline_secs))) := by
  unfold dispatch_arrival
  rw [hhigh]
  simp only [hha, bump_used_eq]
  rfl

lemma dispatch_arrival_slept_le {e : E} {wu : Option Nat} {w : Nat}
    (hw : (dispatch_arrival H c i e wu).2.slept = some w) : w ≤ i.elapsed := by
  unfold dispatch_arrival at hw
  by_cases hhigh : H.is_high_priority e
  · rw [hhigh] at hw
    rcases hha : H.handle c.comp e with ⟨a, s⟩
    rw [hha] at hw
    cases a <;> simp at hw
    omega
  · rw [Bool.not_eq_true] at hhigh
    rw [hhigh] at hw
    simp at hw

lemma dispatch_arrival_wu {e : E} {wu : Option Nat} :
    (dispatch_arrival H c i e wu).2.waiting_until = wu := by
  unfold dispatch_arrival
  by_cases hhigh : H.is_high_priority e
  · rw [hhigh]
    rcases hha : H.handle c.comp e with ⟨a, s⟩
    cases a <;> simp [hha]
  · rw [Bool.not_eq_true] at hhigh
    rw [hhigh]
    simp

lemma handle_front_retry {f : E} {s : S} {rest : List E} {wu : Option Nat}
    (hb : c.buffer = f :: rest) (hha : H.handle c.comp f = (Action.Retry, s)) :
    (handle_front H c i wu).1.retry_deadline =
      some (i.now + min i.elapsed (min (next_retry_count c.normal_retry) 5 * online_secs),
            i.now + min i.elapsed (min (next_retry_count c.normal_retry) 5 * offline_secs)) := by
  simp only [handle_front, hb, hha, bump_used_eq]

lemma handle_front_slept {wu : Option Nat} : (handle_front H c i wu).2.slept = none := by
  unfold handle_front
  cases hb : c.buffer with
  | nil => rfl
  | cons f rest =>
    rcases hha : H.handle c.comp f with ⟨a, s⟩
    cases a <;> simp [hha]

lemma handle_front_wu {wu : Option Nat} : (handle_front H c i wu).2.waiting_until = wu := by
  unfold handle_front
  cases hb : c.buffer with
  | nil => rfl
  | cons f rest =>
    rcases hha : H.handle c.comp f with ⟨a, s⟩
    cases a <;> simp [hha]

lemma handle_front_pr {wu : Option Nat} :
    (handle_front H c i wu).1.priority_retry = c.priority_retry := by
  unfold handle_front
  cases hb : c.buffer with
  | nil => rfl
  | cons f rest =>
    rcases hha : H.handle c.comp f with ⟨a, s⟩
    cases a <;> simp [hha]

lemma priority_phase_inv {e : E} (hp : c.priority_event = some e) :
    (priority_phase H c i e).1.priority_event = none →
      (priority_phase H c i e).1.priority_retry = none := by
  unfold priority_phase
  rcases hha : H.handle c.comp e with ⟨a, s⟩
  cases a <;> simp [hha, hp]

lemma dispatch_arrival_inv {e : E} {wu : Option Nat} (hpr : c.priority_retry = none) :
    (dispatch_arrival H c i e wu).1.priority_event = none →
      (dispatch_arrival H c i e wu).1.priority_retry = none := by
  unfold dispatch_arrival
  by_cases hhigh : H.is_high_priority e
  · rw [hhigh]
    rcases hha : H.handle c.comp e with ⟨a, s⟩
    cases a <;> simp [hha, hpr]
  · rw [Bool.not_eq_true] at hhigh
    rw [hhigh]
    simp [hpr]

lemma priority_phase_reset {e : E}
    (ha : (priority_phase H c i e).2.action = some Action.ResetTimeout) :
    (priority_phase H c i e).1.priority_retry = none ∧
      (priority_phase H c i e).1.normal_retry = none := by
  unfold priority_phase at ha ⊢
  rcases hha : H.handle c.comp e with ⟨a, s⟩
  cases a <;> simp_all

lemma dispatch_arrival_reset {e : E} {wu : Option Nat}
    (ha : (dispatch_arrival H c i e wu).2.action = some Action.ResetTimeout) :
    (dispatch_arrival H c i e wu).1.priority_retry = none ∧
      (dispatch_arrival H c i e wu).1.normal_retry = none := by
  unfold dispatch_arrival at ha ⊢
  by_cases hhigh : H.is_high_priority e
  · rw [hhigh] at ha ⊢
    rcases hha : H.handle c.comp e with ⟨a, s⟩
    cases a <;> simp_all
  · rw [Bool.not_eq_true] at hhigh
    rw [hhigh] at ha
    simp at ha

lemma handle_front_reset {wu : Option Nat} (hpr : c.priority_retry = none)
    (ha : (handle_front H c i wu).2.action = some Action.ResetTimeout) :
    (handle_front H c i wu).1.priority_retry = none ∧
      (handle_front H c i wu).1.normal_retry = none := by
  unfold handle_front at ha ⊢
  cases hb : c.buffer with
  | nil => rw [hb] at ha; simp [noStep] at ha
  | cons f rest =>
    rw [hb] at ha
    rcases hha : H.handle c.comp f with ⟨a, s⟩
    cases a <;> simp_all

lemma step_preserves_priority_inv
    (h : c.priority_event = none → c.priority_retry = none) :
    (step H c i).1.priority_event = none → (step H c i).1.priority_retry = none := by
  by_cases hh : c.halted
  · rw [step_halted H c i hh]
    exact h
  · rw [Bool.not_eq_true] at hh
    cases hpe : c.priority_event with
    | some e =>
      rw [step_priority H c i hh hpe]
      exact priority_phase_inv H c i hpe
    | none =>
      have hpr : c.priority_retry = none := h hpe
      cases hb : c.buffer with
      | nil =>
        cases hrc : i.recv with
        | arrived e =>
          rw [step_arrived_nil H c i hh hpe hb hrc]
          exact dispatch_arrival_inv H c i hpr
        | expired =>
          rw [step_nil_stutter H c i hh hpe hb (Or.inl hrc)]
          exact fun _ => hpr
        | empty =>
          rw [step_nil_stutter H c i hh hpe hb (Or.inr (Or.inl hrc))]
          exact fun _ => hpr
        | closed =>
          rw [step_nil_stutter H c i hh hpe hb (Or.inr (Or.inr hrc))]
          exact fun _ => hpr
      | cons f rest =>
        cases hd : c.retry_deadline with
        | some d =>
          cases hrc : i.recv with
          | arrived e =>
            rw [step_arrived_dl H c i hh hpe hb hd hrc]
            exact dispatch_arrival_inv H c i hpr
          | expired =>
            rw [step_expired_dl H c i hh hpe hb hd hrc]
            intro _
            rw [handle_front_pr]
            exact hpr
          | closed =>
            rw [step_closed_dl H c i hh hpe hb hd hrc]
            intro _
            rw [handle_front_pr]
            exact hpr
          | empty =>
            rw [step_empty_dl H c i hh hpe hb hd hrc]
            exact fun _ => hpr
        | none =>
          cases hrc : i.recv with
          | arrived e =>
            rw [step_arrived_nodl H c i hh hpe hb hd hrc]
            exact dispatch_arrival_inv H c i hpr
          | empty =>
            rw [step_empty_nodl H c i hh hpe hb hd hrc]
            intro _
            rw [handle_front_pr]
            exact hpr
          | closed =>
            rw [step_closed_nodl H c i hh hpe hb hd hrc]
            exact fun _ => hpr
          | expired =>
            rw [step_expired_nodl H c i hh hpe hb hd hrc]
            exact fun _ => hpr

lemma reachable_priority_inv {c : ChanState E S} (hr : Reachable H c) :
    c.priority_event = none → c.priority_retry = none := by
  induction hr with
  | base s => intro _; rfl
  | next c0 i0 _ ih => exact step_preserves_priority_inv H c0 i0 ih

end ChannelLemmas

section ChannelClaims

variable {E S : Type}

/-- Claim C5: in the priority-retry channel, every retry wait equals
`min(elapsed_seconds_since_component_start, min(retry_count, 5) * base_seconds)`,
where `base_seconds` is 5 when `is_online()` returns true and 30 when it returns
false. The first two conjuncts cover the sleeps of the priority slot and of a
high-priority arrival; the third states that a normal retry arms the deadline
pair `now + min(elapsed, min(retry_count, 5) * base)` for both bases, and the
fourth that the deadline actually blocked on is the online one exactly when
`is_online()` holds at the moment of waiting. The last conjunct is the clamp:
every sleep is at most the time elapsed since the component started, so the
first retry of a just-started component waits at most that, not 30 seconds. -/
theorem claim_C5 (H : Handlers E S) (c : ChanState E S) (i : StepIn E)
    (e f : E) (rest : List E) (s : S) (d : Nat × Nat) :
    (c.halted = false → c.priority_event = some e → H.handle c.comp e = (Action.Retry, s) →
      (step H c i).2.slept = some (min i.elapsed
        (min (next_retry_count c.priority_retry) 5 * (if H.is_online s then 5 else 30)))) ∧
    (c.halted = false → c.priority_event = none → i.recv = Recv.arrived e →
      H.is_high_priority e = true → H.handle c.comp e = (Action.Retry, s) →
      (step H c i).2.slept = some (min i.elapsed
        (min (next_retry_count c.priority_retry) 5 * (if H.is_online s then 5 else 30)))) ∧
    (c.halted = false → c.priority_event = none → c.buffer = f :: rest →
      (c.retry_deadline = none ∧ i.recv = Recv.empty ∨
        ∃ d0, c.retry_deadline = some d0 ∧ (i.recv = Recv.expired ∨ i.recv = Recv.closed)) →
      H.handle c.comp f = (Action.Retry, s) →
      (step H c i).1.retry_deadline = some
        (i.now + min i.elapsed (min (next_retry_count c.normal_retry) 5 * 5),
         i.now + min i.elapsed (min (next_retry_count c.normal_retry) 5 * 30))) ∧
    (c.halted = false → c.priority_event = none → c.buffer = f :: rest →
      c.retry_deadline = some d →
      (i.recv = Recv.arrived e ∨ i.recv = Recv.expired ∨ i.recv = Recv.closed) →
      (step H c i).2.waiting_until = some (if H.is_online c.comp then d.1 else d.2)) ∧
    (∀ w, (step H c i).2.slept = some w → w ≤ i.elapsed) := by
  refine ⟨?_, ?_, ?_, ?_, ?_⟩
  · intro hh hp hha
    rw [step_priority H c i hh hp, priority_phase_retry H c i hha]
    rfl
  · intro hh hp hrc hhigh hha
    cases hb : c.buffer with
    | nil =>
      rw [step_arrived_nil H c i hh hp hb hrc, dispatch_arrival_retry H c i hhigh hha]
      rfl
    | cons f0 rest0 =>
      cases hd : c.retry_deadline with
      | some d0 =>
        rw [step_arrived_dl H c i hh hp hb hd hrc, dispatch_arrival_retry H c i hhigh hha]
        rfl
      | none =>
        rw [step_arrived_nodl H c i hh hp hb hd hrc, dispatch_arrival_retry H c i hhigh hha]
        rfl
  · intro hh hp hb hcase hha
    rcases hcase with ⟨hd, hrc⟩ | ⟨d0, hd, hrc | hrc⟩
    · rw [step_empty_nodl H c i hh hp hb hd hrc, handle_front_retry H c i hb hha]
      rfl
    · rw [step_expired_dl H c i hh hp hb hd hrc,
        handle_front_retry H { c with retry_deadline := none } i hb hha]
      rfl
    · rw [step_closed_dl H c i hh hp hb hd hrc, handle_front_retry H c i hb hha]
      rfl
  · intro hh hp hb hd hrc
    rcases hrc with hrc | hrc | hrc
    · rw [step_arrived_dl H c i hh hp hb hd hrc, dispatch_arrival_wu]
      rfl
    · rw [step_expired_dl H c i hh hp hb hd hrc, handle_front_wu]
      rfl
    · rw [step_closed_dl H c i hh hp hb hd hrc, handle_front_wu]
      rfl
  · intro w hw
    by_cases hh : c.halted
    · rw [step_halted H c i hh] at hw
      simp [noStep] at hw
    · rw [Bool.not_eq_true] at hh
      cases hpe : c.priority_event with
      | some e0 =>
        rw [step_priority H c i hh hpe] at hw
        exact priority_phase_slept_le H c i hw
      | none =>
        cases hb : c.buffer with
        | nil =>
          cases hrc : i.recv with
          | arrived e0 =>
            rw [step_arrived_nil H c i hh hpe hb hrc] at hw
            exact dispatch_arrival_slept_le H c i hw
          | expired =>
            rw [step_nil_stutter H c i hh hpe hb (Or.inl hrc)] at hw
            simp [noStep] at hw
          | empty =>
            rw [step_nil_stutter H c i hh hpe hb (Or.inr (Or.inl hrc))] at hw
            simp [noStep] at hw
          | closed =>
            rw [step_nil_stutter H c i hh hpe hb (Or.inr (Or.inr hrc))] at hw
            simp [noStep] at hw
        | cons f0 rest0 =>
          cases hd : c.retry_deadline with
          | some d0 =>
            cases hrc : i.recv with
            | arrived e0 =>
              rw [step_arrived_dl H c i hh hpe hb hd hrc] at hw
              exact dispatch_arrival_slept_le H c i hw
            | expired =>
              rw [step_expired_dl H c i hh hpe hb hd hrc, handle_front_slept] at hw
              simp at hw
            | closed =>
              rw [step_closed_dl H c i hh hpe hb hd hrc, handle_front_slept] at hw
              simp at hw
            | empty =>
              rw [step_empty_dl H c i hh hpe hb hd hrc] at hw
              simp [noStep] at hw
          | none =>
            cases hrc : i.recv with
            | arrived e0 =>
              rw [step_arrived_nodl H c i hh hpe hb hd hrc] at hw
              exact dispatch_arrival_slept_le H c i hw
            | empty =>
              rw [step_empty_nodl H c i hh hpe hb hd hrc, handle_front_slept] at hw
              simp at hw
            | closed =>
              rw [step_closed_nodl H c i hh hpe hb hd hrc] at hw
              simp [noStep] at hw
            | expired =>
              rw [step_expired_nodl H c i hh hpe hb hd hrc] at hw
              simp [noStep] at hw

/-- Claim C6: for every event that arrives on the channel queue, if
`is_high_priority` holds it is passed to the handler immediately — before any
event of the pending buffer is handled, even when the buffer is non-empty and a
retry deadline is pending (the buffer is untouched by the step) — and otherwise
it is appended to the back of the buffer and the handler is not invoked. -/
theorem claim_C6 (H : Handlers E S) (c : ChanState E S) (i : StepIn E) (e : E)
    (hh : c.halted = false) (hp : c.priority_event = none) (hr : i.recv = Recv.arrived e) :
    (H.is_high_priority e = true →
      (step H c i).2.handled = some e ∧ (step H c i).1.buffer = c.buffer) ∧
    (H.is_high_priority e = false →
      (step H c i).2.handled = none ∧ (step H c i).1.buffer = c.buffer ++ [e]) := by
  obtain ⟨wu, hstep⟩ : ∃ wu, step H c i = dispatch_arrival H c i e wu := by
    cases hb : c.buffer with
    | nil => exact ⟨none, step_arrived_nil H c i hh hp hb hr⟩
    | cons f rest =>
      cases hd : c.retry_deadline with
      | some d => exact ⟨some (chosen_deadline H c d), step_arrived_dl H c i hh hp hb hd hr⟩
      | none => exact ⟨none, step_arrived_nodl H c i hh hp hb hd hr⟩
  rw [hstep]
  exact ⟨fun h => dispatch_arrival_high H c i h, fun h => dispatch_arrival_low H c i h⟩

/-- Claim C8: in any reachable state of the channel loop, whenever the handler
invocation of a step returns `ResetTimeout` — in the priority slot, on a
high-priority arrival, or on a normal buffered event — both the priority retry
counter and the normal retry counter are clear after the step. (For the normal
site this relies on the invariant that the priority counter is already clear
whenever no priority event is stored.) -/
theorem claim_C8 (H : Handlers E S) {c : ChanState E S} (i : StepIn E)
    (hr : Reachable H c)
    (ha : (step H c i).2.action = some Action.ResetTimeout) :
    (step H c i).1.priority_retry = none ∧ (step H c i).1.normal_retry = none := by
  by_cases hh : c.halted
  · rw [step_halted H c i hh] at ha
    simp [noStep] at ha
  · rw [Bool.not_eq_true] at hh
    cases hpe : c.priority_event with
    | some e =>
      rw [step_priority H c i hh hpe] at ha ⊢
      exact priority_phase_reset H c i ha
    | none =>
      have hpr : c.priority_retry = none := reachable_priority_inv H hr hpe
      cases hb : c.buffer with
      | nil =>
        cases hrc : i.recv with
        | arrived e =>
          rw [step_arrived_nil H c i hh hpe hb hrc] at ha ⊢
          exact dispatch_arrival_reset H c i ha
        | expired =>
          rw [step_nil_stutter H c i hh hpe hb (Or.inl hrc)] at ha
          simp [noStep] at ha
        | empty =>
          rw [step_nil_stutter H c i hh hpe hb (Or.inr (Or.inl hrc))] at ha
          simp [noStep] at ha
        | closed =>
          rw [step_nil_stutter H c i hh hpe hb (Or.inr (Or.inr hrc))] at ha
          simp [noStep] at ha
      | cons f rest =>
        cases hd : c.retry_deadline with
        | some d =>
          cases hrc : i.recv with
          | arrived e =>
            rw [step_arrived_dl H c i hh hpe hb hd hrc] at ha ⊢
            exact dispatch_arrival_reset H c i ha
          | expired =>
            rw [step_expired_dl H c i hh hpe hb hd hrc] at ha ⊢
            exact handle_front_reset H { c with retry_deadline := none } i hpr ha
          | closed =>
            rw [step_closed_dl H c i hh hpe hb hd hrc] at ha ⊢
            exact handle_front_reset H c i hpr ha
          | empty =>
            rw [step_empty_dl H c i hh hpe hb hd hrc] at ha
            simp [noStep] at ha
        | none =>
          cases hrc : i.recv with
          | arrived e =>
            rw [step_arrived_nodl H c i hh hpe hb hd hrc] at ha ⊢
            exact dispatch_arrival_reset H c i ha
          | empty =>
            rw [step_empty_nodl H c i hh hpe hb hd hrc] at ha ⊢
            exact handle_front_reset H c i hpr ha
          | closed =>
            rw [step_closed_nodl H c i hh hpe hb hd hrc] at ha
            simp [noStep] at ha
          | expired =>
            rw [step_expired_nodl H c i hh hpe hb hd hrc] at ha
            simp [noStep] at ha

end ChannelClaims

/-- Concrete handlers whose handler always asks for a retry; used to evaluate
the channel claims on concrete inputs. -/
def retry_handlers : Handlers Unit Unit :=
  ⟨fun _ => true, fun _ => true, fun _ _ => (Action.Retry, ())⟩

/-- Concrete handlers whose handler always returns `ResetTimeout`. -/
def reset_handlers : Handlers Unit Unit :=
  ⟨fun _ => true, fun _ => true, fun _ _ => (Action.ResetTimeout, ())⟩

/-- Concrete handlers over `Bool` events where the event itself is its
high-priority flag and the handler continues. -/
def bool_handlers : Handlers Bool Unit :=
  ⟨fun _ => true, fun e => e, fun s _ => (Action.Continue, s)⟩

/-- Channel state with a stored priority event. -/
def c5p : ChanState Unit Unit := ⟨none, [], some (), none, none, (), false⟩

/-- Channel state with one buffered normal event and no deadline. -/
def c5n : ChanState Unit Unit := ⟨none, [()], none, none, none, (), false⟩

/-- Channel state with one buffered normal event and an armed deadline pair. -/
def c5d : ChanState Unit Unit := ⟨some (7, 9), [()], none, none, none, (), false⟩

/-- Witness for C5: the formula evaluated on concrete states — a first priority
retry at elapsed 100 sleeps `min 100 (1 * 5) = 5` seconds; a first normal retry
at elapsed 100 and now 1000 arms deadlines `(1005, 1030)`; with deadline pair
`(7, 9)` and the component online the loop blocks until 7; and the sleep 5 is
clamped by the elapsed 100. -/
theorem claim_C5_witness :
    (step retry_handlers c5p ⟨Recv.empty, 100, 1000⟩).2.slept = some 5 ∧
    (step retry_handlers (init_state ()) ⟨Recv.arrived (), 100, 1000⟩).2.slept = some 5 ∧
    (step retry_handlers c5n ⟨Recv.empty, 100, 1000⟩).1.retry_deadline = some (1005, 1030) ∧
    (step retry_handlers c5d ⟨Recv.closed, 100, 1000⟩).2.waiting_until = some 7 ∧
    5 ≤ 100 :=
  ⟨(claim_C5 retry_handlers c5p ⟨Recv.empty, 100, 1000⟩ () () [] () (0, 0)).1 rfl rfl rfl,
   (claim_C5 retry_handlers (init_state ()) ⟨Recv.arrived (), 100, 1000⟩ () () [] ()
      (0, 0)).2.1 rfl rfl rfl rfl rfl,
   (claim_C5 retry_handlers c5n ⟨Recv.empty, 100, 1000⟩ () () [] () (0, 0)).2.2.1 rfl rfl rfl
      (Or.inl ⟨rfl, rfl⟩) rfl,
   (claim_C5 retry_handlers c5d ⟨Recv.closed, 100, 1000⟩ () () [] () (7, 9)).2.2.2.1 rfl rfl rfl
      rfl (Or.inr (Or.inr rfl)),
   (claim_C5 retry_handlers c5p ⟨Recv.empty, 100, 1000⟩ () () [] () (0, 0)).2.2.2.2 5 rfl⟩

/-- Witness for C6: on a state with a non-empty buffer and an armed deadline, a
high-priority arrival is handled at once with the buffer untouched, while a
normal arrival is appended to the back of the buffer unhandled. -/
theorem claim_C6_witness :
    ((step bool_handlers ⟨some (3, 4), [false], none, none, none, (), false⟩
        ⟨Recv.arrived true, 0, 0⟩).2.handled = some true ∧
      (step bool_handlers ⟨some (3, 4), [false], none, none, none, (), false⟩
        ⟨Recv.arrived true, 0, 0⟩).1.buffer = [false]) ∧
    ((step bool_handlers ⟨some (3, 4), [false], none, none, none, (), false⟩
        ⟨Recv.arrived false, 0, 0⟩).2.handled = none ∧
      (step bool_handlers ⟨some (3, 4), [false], none, none, none, (), false⟩
        ⟨Recv.arrived false, 0, 0⟩).1.buffer = [false] ++ [false]) :=
  ⟨(claim_C6 bool_handlers ⟨some (3, 4), [false], none, none, none, (), false⟩
      ⟨Recv.arrived true, 0, 0⟩ true rfl rfl rfl).1 rfl,
   (claim_C6 bool_handlers ⟨some (3, 4), [false], none, none, none, (), false⟩
      ⟨Recv.arrived false, 0, 0⟩ false rfl rfl rfl).2 rfl⟩

/-- Witness for C8: from the initial state, a high-priority arrival whose
handler returns `ResetTimeout` leaves both retry counters clear. -/
theorem claim_C8_witness :
    (step reset_handlers (init_state ()) ⟨Recv.arrived (), 0, 0⟩).1.priority_retry = none ∧
      (step reset_handlers (init_state ()) ⟨Recv.arrived (), 0, 0⟩).1.normal_retry = none :=
  claim_C8 reset_handlers ⟨Recv.arrived (), 0, 0⟩ (Reachable.base ()) rfl

/-- Game languages (enum `Language` in orchestrator.rs). -/
inductive Language
  | English
  | Japanese
  | Cantonese
  | Other (lang : String)
deriving DecidableEq, Repr

/-- Read-only game reference data (struct `Game` in orchestrator.rs). Paths are
modelled as strings. -/
structure Game where
  id : Int
  path : String
  directory : String
  language : Language
  label : String
deriving DecidableEq, Repr

/-- One play session (struct `Play` in orchestrator.rs). -/
structure Play where
  id : Int
  game : Game
  start_time : Nat
  end_time : Option Nat
  intake_id : Option String
  submitted_start : Option Nat
  submitted_end : Option Nat
  skipped : Bool
deriving DecidableEq, Repr

/-- The orchestrator state the `GameEnded` arm touches: `current_play`,
`previous_play`, and the persisted currently-playing singleton (the play id the
most recent `detach_save_currently_playing` call wrote, `none` when the row was
deleted without replacement). -/
structure OrchState where
  current_play : Option Play
  previous_play : Option Play
  saved_current : Option Int
deriving DecidableEq, Repr

/-- Everything the `GameEnded` arm can emit: error and success notifications and
the `SubmitFull` event sent to the intake queue. -/
inductive OrchEmit
  | notifyError
  | notifySuccess
  | submitFull (play_id : Int) (game_label : String) (language : Language)
      (start_time : Nat) (end_time : Nat)
deriving DecidableEq, Repr

/-- Prefix trimming (`Orchestrator::trim_game_path`): with a configured prefix
the path must start with it (else an error is notified and the event dropped);
without one the path is returned unchanged. `Path::strip_prefix` is modelled as
string-prefix removal. -/
def trim_game_path (trim : Option String) (path : String) : Option String :=
  match trim with
  | some p => if p.isPrefixOf path then some (path.drop p.length) else none
  | none => some path

/-- `Database::finished_playing`: sets `end_time` to the current time and
returns the updated play. -/
def finished_playing (now : Nat) (p : Play) : Play :=
  { p with end_time := some now }

/-- `Orchestrator::set_current_play`: takes the current play, moves it into
`previous_play` when present, installs the argument as `current_play`, and
persists the new current id via `detach_save_currently_playing` (modelled as the
`saved_current` field). -/
def set_current_play (st : OrchState) (play : Option Play) : OrchState :=
  let taken := st.current_play
  let prev := if taken.isSome then taken else st.previous_play
  ⟨play, prev, play.map fun p => p.id⟩

/-- `Orchestrator::playing`: the current play, falling back to the previous one. -/
def playing (st : OrchState) : Option Play :=
  match st.current_play with
  | some p => some p
  | none => st.previous_play

/-- The `Event::GameEnded` arm of `Orchestrator::start` (orchestrator.rs lines
349-382): trim the path (error and drop on failure); take `current_play`; if its
game path mismatches, notify an error (the taken play is dropped); otherwise set
`end_time` via `finished_playing`, restore the finished play as `current_play`,
emit `SubmitFull` to intake and notify success; with no current play notify an
error. In every non-trim-failure path the arm finally calls
`set_current_play(None)`. -/
def handle_game_ended (trim : Option String) (now : Nat) (st : OrchState) (path : String) :
    OrchState × List OrchEmit :=
  match trim_game_path trim path with
  | none => (st, [OrchEmit.notifyError])
  | some p =>
    match st.current_play with
    | some play =>
      if play.game.path ≠ p then
        (set_current_play { st with current_play := none } none, [OrchEmit.notifyError])
      else
        let play2 := finished_playing now play
        (set_current_play { st with current_play := some play2 } none,
         [OrchEmit.submitFull play2.id play2.game.label play2.game.language play2.start_time
            (play2.end_time.getD 0),
          OrchEmit.notifySuccess])
    | none => (set_current_play { st with current_play := none } none, [OrchEmit.notifyError])

/-- Claim C1 as stated is false: on a `GameEnded` whose trimmed path does not
match the current play's game path, the orchestrator notifies an error and emits
nothing to intake, but it does NOT leave its state intact — the `take()` of
`current_play` together with the final `set_current_play(None)` clears
`current_play` (discarding the play) and detaches the persisted singleton. This
counterexample exhibits the state change at a concrete input. -/
theorem claim_C1_counterexample :
    (handle_game_ended none 200
        ⟨some ⟨7, ⟨1, "roms/a.gba", "dirA", Language.English, "Game A"⟩,
           100, none, none, none, none, false⟩, none, some 7⟩
        "roms/b.gba").2 = [OrchEmit.notifyError] ∧
    (handle_game_ended none 200
        ⟨some ⟨7, ⟨1, "roms/a.gba", "dirA", Language.English, "Game A"⟩,
           100, none, none, none, none, false⟩, none, some 7⟩
        "roms/b.gba").1.current_play = none ∧
    (handle_game_ended none 200
        ⟨some ⟨7, ⟨1, "roms/a.gba", "dirA", Language.English, "Game A"⟩,
           100, none, none, none, none, false⟩, none, some 7⟩
        "roms/b.gba").1.saved_current = none ∧
    (handle_game_ended none 200
        ⟨some ⟨7, ⟨1, "roms/a.gba", "dirA", Language.English, "Game A"⟩,
           100, none, none, none, none, false⟩, none, some 7⟩
        "roms/b.gba").1 ≠
      ⟨some ⟨7, ⟨1, "roms/a.gba", "dirA", Language.English, "Game A"⟩,
         100, none, none, none, none, false⟩, none, some 7⟩ := by
  refine ⟨?_, ?_, ?_, ?_⟩ <;> decide

/-- Claim C1 (amended): for every `GameEnded` event whose trimmed path does not
match the game path of `current_play` (or for which there is no current play),
the orchestrator notifies an error and drops the event — nothing is emitted to
intake and no play's `end_time` is set — but the state is not left intact:
`current_play` is cleared (the taken play is discarded, not moved to
`previous_play`), `previous_play` is unchanged, and the persisted
currently-playing singleton is detached. -/
theorem claim_C1 (trim : Option String) (now : Nat) (st : OrchState) (path p : String)
    (ht : trim_game_path trim path = some p)
    (hmis : st.current_play = none ∨
      ∃ play, st.current_play = some play ∧ play.game.path ≠ p) :
    (handle_game_ended trim now st path).2 = [OrchEmit.notifyError] ∧
    (handle_game_ended trim now st path).1 = ⟨none, st.previous_play, none⟩ := by
  unfold handle_game_ended
  rw [ht]
  rcases hmis with hc | ⟨play, hc, hne⟩
  · simp [hc, set_current_play]
  · simp [hc, hne, set_current_play]

/-- Witness for the amended C1 at a mismatching path with no configured prefix. -/
theorem claim_C1_witness :
    (handle_game_ended none 200
        ⟨some ⟨7, ⟨1, "roms/a.gba", "dirA", Language.English, "Game A"⟩,
           100, none, none, none, none, false⟩, none, some 7⟩
        "roms/b.gba").2 = [OrchEmit.notifyError] ∧
    (handle_game_ended none 200
        ⟨some ⟨7, ⟨1, "roms/a.gba", "dirA", Language.English, "Game A"⟩,
           100, none, none, none, none, false⟩, none, some 7⟩
        "roms/b.gba").1 = ⟨none, none, none⟩ :=
  claim_C1 none 200
    ⟨some ⟨7, ⟨1, "roms/a.gba", "dirA", Language.English, "Game A"⟩,
       100, none, none, none, none, false⟩, none, some 7⟩
    "roms/b.gba" "roms/b.gba" rfl
    (Or.inr ⟨⟨7, ⟨1, "roms/a.gba", "dirA", Language.English, "Game A"⟩,
       100, none, none, none, none, false⟩, rfl, by decide⟩)

/-- Claim C2 as stated is false: after a matching `GameEnded`, the finished play
does not remain as `current_play` until the next `GameStarted` — the arm's final
`set_current_play(None)` moves it into `previous_play` and clears
`current_play`. -/
theorem claim_C2_counterexample :
    (handle_game_ended none 200
        ⟨some ⟨7, ⟨1, "roms/a.gba", "dirA", Language.English, "Game A"⟩,
           100, none, none, none, none, false⟩, none, some 7⟩
        "roms/a.gba").1.current_play = none ∧
    (handle_game_ended none 200
        ⟨some ⟨7, ⟨1, "roms/a.gba", "dirA", Language.English, "Game A"⟩,
           100, none, none, none, none, false⟩, none, some 7⟩
        "roms/a.gba").1.previous_play =
      some ⟨7, ⟨1, "roms/a.gba", "dirA", Language.English, "Game A"⟩,
        100, some 200, none, none, none, false⟩ := by
  exact ⟨by decide, by decide⟩

/-- Claim C2 (amended): for every `GameEnded` whose trimmed path matches the
current play's game path, the orchestrator calls `finished_playing` (setting
`end_time` to now) and emits `SubmitFull` with the play's id, label, language,
start time and the new end time — but the finished play is then moved to
`previous_play` (with `current_play` cleared and the persisted singleton
detached), not kept as `current_play`; subsequent screenshot and save events
still associate with it because `playing()` falls back to `previous_play`. -/
theorem claim_C2 (trim : Option String) (now : Nat) (st : OrchState) (path p : String)
    (play : Play) (ht : trim_game_path trim path = some p)
    (hc : st.current_play = some play) (hmatch : play.game.path = p) :
    (finished_playing now play).end_time = some now ∧
    (handle_game_ended trim now st path).2 =
      [OrchEmit.submitFull play.id play.game.label play.game.language play.start_time now,
       OrchEmit.notifySuccess] ∧
    (handle_game_ended trim now st path).1 = ⟨none, some (finished_playing now play), none⟩ ∧
    playing (handle_game_ended trim now st path).1 = some (finished_playing now play) := by
  unfold handle_game_ended
  rw [ht]
  simp [hc, hmatch, set_current_play, finished_playing, playing]

/-- Witness for the amended C2 at a matching path with no configured prefix. -/
theorem claim_C2_witness :
    (finished_playing 200
        ⟨7, ⟨1, "roms/a.gba", "dirA", Language.English, "Game A"⟩,
          100, none, none, none, none, false⟩).end_time = some 200 ∧
    (handle_game_ended none 200
        ⟨some ⟨7, ⟨1, "roms/a.gba", "dirA", Language.English, "Game A"⟩,
           100, none, none, none, none, false⟩, none, some 7⟩
        "roms/a.gba").2 =
      [OrchEmit.submitFull 7 "Game A" Language.English 100 200, OrchEmit.notifySuccess] ∧
    (handle_game_ended none 200
        ⟨some ⟨7, ⟨1, "roms/a.gba", "dirA", Language.English, "Game A"⟩,
           100, none, none, none, none, false⟩, none, some 7⟩
        "roms/a.gba").1 =
      ⟨none, some (finished_playing 200
        ⟨7, ⟨1, "roms/a.gba", "dirA", Language.English, "Game A"⟩,
          100, none, none, none, none, false⟩), none⟩ ∧
    playing (handle_game_ended none 200
        ⟨some ⟨7, ⟨1, "roms/a.gba", "dirA", Language.English, "Game A"⟩,
           100, none, none, none, none, false⟩, none, some 7⟩
        "roms/a.gba").1 =
      some (finished_playing 200
        ⟨7, ⟨1, "roms/a.gba", "dirA", Language.English, "Game A"⟩,
          100, none, none, none, none, false⟩) :=
  claim_C2 none 200
    ⟨some ⟨7, ⟨1, "roms/a.gba", "dirA", Language.English, "Game A"⟩,
       100, none, none, none, none, false⟩, none, some 7⟩
    "roms/a.gba" "roms/a.gba"
    ⟨7, ⟨1, "roms/a.gba", "dirA", Language.English, "Game A"⟩,
      100, none, none, none, none, false⟩
    rfl rfl rfl

/-- Rust `str::split_once('.')`: splits at the first `'.'` anywhere in the
list, returning the parts before and after it, or `none` when there is no dot. -/
def splitOnceDot : List Char → Option (List Char × List Char)
  | [] => none
  | c :: rest =>
    if c = '.' then some ([], rest)
    else (splitOnceDot rest).map fun pr => (c :: pr.1, pr.2)

/-- Rust `Path::file_name`, restricted to single-component paths (the domain of
every use and test of `full_extension` in fs.rs): `""`, `"."` and `".."` have no
file name; any other separator-free path is its own file name. -/
def file_name (path : String) : Option String :=
  if path = "" ∨ path = "." ∨ path = ".." then none else some path

/-- `full_extension` from fs.rs: the basename split at its first `'.'`, keeping
everything after it (`b.split_once('.').map(|(_, after)| after)`). -/
def full_extension (path : String) : Option String :=
  match file_name path with
  | none => none
  | some b => (splitOnceDot b.data).map fun pr => String.mk pr.2

lemma splitOnceDot_eq_none {l : List Char} : splitOnceDot l = none ↔ '.' ∉ l := by
  induction l with
  | nil => simp [splitOnceDot]
  | cons c rest ih =>
    by_cases hc : c = '.'
    · subst hc
      simp [splitOnceDot]
    · rw [List.mem_cons]
      simp only [splitOnceDot, if_neg hc, Option.map_eq_none', ih]
      constructor
      · intro h
        rintro (h1 | h2)
        · exact hc h1.symm
        · exact h h2
      · intro h
        exact fun h2 => h (Or.inr h2)

lemma splitOnceDot_eq_some {l a b : List Char} (h : splitOnceDot l = some (a, b)) :
    l = a ++ '.' :: b ∧ '.' ∉ a := by
  induction l generalizing a with
  | nil => simp [splitOnceDot] at h
  | cons c rest ih =>
    by_cases hc : c = '.'
    · subst hc
      simp [splitOnceDot] at h
      obtain ⟨ha, hb⟩ := h
      subst ha
      subst hb
      simp
    · simp only [splitOnceDot, if_neg hc, Option.map_eq_some'] at h
      obtain ⟨pr, hsp, heq⟩ := h
      rcases pr with ⟨a0, b0⟩
      simp only [Prod.mk.injEq] at heq
      obtain ⟨ha, hb⟩ := heq
      subst hb
      obtain ⟨hl0, hna⟩ := ih hsp
      subst hl0
      subst ha
      refine ⟨by simp, ?_⟩
      rw [List.mem_cons]
      rintro (h1 | h2)
      · exact hc h1.symm
      · exact hna h2

/-- Claim C9 as stated is false: the spec says a leading dot does not count, so
a basename like `".foo"` has no extension — but `full_extension` splits at the
first `'.'` anywhere, and the code's own unit test asserts
`full_extension(Path::new(".foo")) == Some("foo")`. -/
theorem claim_C9_counterexample :
    full_extension (String.mk ['.', 'f', 'o', 'o']) = some (String.mk ['f', 'o', 'o']) ∧
      full_extension (String.mk ['.', 'f', 'o', 'o']) ≠ none := by
  exact ⟨by decide, by decide⟩

/-- Claim C9 (amended): for every path with a file name, `full_extension`
returns everything after the first `'.'` anywhere in the basename — a leading
dot counts, so `".foo"` has extension `"foo"` — and returns no extension exactly
when the basename contains no dot at all (or the path has no file name). -/
theorem claim_C9 (p b : String) (hf : file_name p = some b) :
    (full_extension p = none ↔ '.' ∉ b.data) ∧
    (∀ ext : String, full_extension p = some ext →
      ∃ pre : List Char, b.data = pre ++ '.' :: ext.data ∧ '.' ∉ pre) := by
  constructor
  · unfold full_extension
    rw [hf]
    simp only [Option.map_eq_none']
    exact splitOnceDot_eq_none
  · intro ext hx
    unfold full_extension at hx
    rw [hf] at hx
    simp only [Option.map_eq_some'] at hx
    obtain ⟨⟨a, bb⟩, hsp, heq⟩ := hx
    obtain ⟨hl, hna⟩ := splitOnceDot_eq_some hsp
    refine ⟨a, ?_, hna⟩
    rw [hl, ← heq]

/-- Witness for the amended C9: evaluated on the compound-extension basename
`"foo.state.auto"`, whose extension the code reports as `"state.auto"`. -/
theorem claim_C9_witness :
    (full_extension (String.mk ['f', 'o', 'o', '.', 's', 't', 'a', 't', 'e', '.',
        'a', 'u', 't', 'o']) = none ↔
      '.' ∉ (String.mk ['f', 'o', 'o', '.', 's', 't', 'a', 't', 'e', '.',
        'a', 'u', 't', 'o']).data) ∧
    (∃ pre : List Char,
      (String.mk ['f', 'o', 'o', '.', 's', 't', 'a', 't', 'e', '.',
        'a', 'u', 't', 'o']).data =
          pre ++ '.' :: (String.mk ['s', 't', 'a', 't', 'e', '.', 'a', 'u', 't', 'o']).data ∧
        '.' ∉ pre) :=
  ⟨(claim_C9 (String.mk ['f', 'o', 'o', '.', 's', 't', 'a', 't', 'e', '.',
      'a', 'u', 't', 'o'])
      (String.mk ['f', 'o', 'o', '.', 's', 't', 'a', 't', 'e', '.',
      'a', 'u', 't', 'o']) (by decide)).1,
   (claim_C9 (String.mk ['f', 'o', 'o', '.', 's', 't', 'a', 't', 'e', '.',
      'a', 'u', 't', 'o'])
      (String.mk ['f', 'o', 'o', '.', 's', 't', 'a', 't', 'e', '.',
      'a', 'u', 't', 'o']) (by decide)).2
      (String.mk ['s', 't', 'a', 't', 'e', '.', 'a', 'u', 't', 'o']) (by decide)⟩

/-- Events of the intake submitter (enum `Event` in intake.rs). -/
inductive IntakeEvent
  | previousGame (play_id : Int) (intake_id : String)
  | submitStarted (play_id : Int) (game_label : String) (language : Language)
      (start_time : Nat)
  | submitEnded (play_id : Int) (intake_id : String) (end_time : Nat)
  | submitFull (play_id : Int) (game_label : String) (language : Language)
      (start_time : Nat) (end_time : Nat)
  | isOnline (b : Bool)
  | startShutdown
deriving DecidableEq, Repr

/-- The remote requests the intake submitter can issue: `create_intake` POSTs
start time, optional end time, game label and language string; `finish_intake`
PATCHes the remote rowid with the end time. -/
inductive IntakeRequest
  | post (start_time : Nat) (end_time : Option Nat) (game_label : String) (language : String)
  | patch (rowid : String) (end_time : Nat)
deriving DecidableEq, Repr

/-- Events the intake submitter emits back to the orchestrator. -/
inductive IntakeEmit
  | intakeStarted (play_id : Int) (intake_id : String) (submitted_start : Nat)
  | intakeEnded (play_id : Int) (submitted_end : Nat)
  | intakeFull (play_id : Int) (intake_id : String) (submitted_start : Nat)
      (submitted_end : Nat)
deriving DecidableEq, Repr

/-- `Language::intake_str` (intake.rs): the strings sent to the remote, with
`Other` mapped to English under a warning. -/
def Language.intake_str : Language → String
  | Language.English => "English"
  | Language.Japanese => "日本語"
  | Language.Cantonese => "廣東話"
  | Language.Other _ => "English"

/-- Association-list view of the `play_to_intake: HashMap<i64, String>`. -/
def lookup_intake : List (Int × String) → Int → Option String
  | [], _ => none
  | kv :: rest, i => if kv.1 = i then some kv.2 else lookup_intake rest i

/-- `HashMap::remove`: drop the key's entry. -/
def remove_intake (m : List (Int × String)) (i : Int) : List (Int × String) :=
  m.filter fun kv => kv.1 ≠ i

lemma lookup_remove_none (m : List (Int × String)) (i : Int) :
    lookup_intake (remove_intake m i) i = none := by
  induction m with
  | nil => rfl
  | cons kv rest ih =>
    by_cases hk : kv.1 = i
    · simpa [remove_intake, List.filter_cons, hk] using ih
    · simpa [remove_intake, List.filter_cons, hk, lookup_intake] using ih

/-- The intake submitter state touched by `SubmitFull`: the play-to-intake map
and the pending-work buffer (the handled event has already been popped from the
front of the buffer). -/
structure IntakeState where
  play_to_intake : List (Int × String)
  buffer : List IntakeEvent
deriving DecidableEq, Repr

/-- Result record of one `SubmitFull` handling: the new submitter state, the
requests issued to the remote, and the events emitted to the orchestrator. -/
structure SubmitFullOut where
  state : IntakeState
  requests : List IntakeRequest
  emits : List IntakeEmit
deriving DecidableEq, Repr

/-- The `Event::SubmitFull` arm of `Intake::start` (intake.rs lines 183-237).
`net` is the network oracle: for a request it yields `some (submitted, rowid)`
on success (`submitted` is the instant captured in `Intake::request` before the
send; `rowid` is the remote's, meaningful for POST) or `none` on failure. On a
map hit only a PATCH is sent; on success the entry is removed and `IntakeEnded`
emitted. On a map miss a POST with both times is sent; on success `IntakeFull`
is emitted with the one instant for both submitted fields. On failure the event
is pushed back to the front of the buffer and retried after a sleep. -/
def handle_submit_full (net : IntakeRequest → Option (Nat × String)) (st : IntakeState)
    (play_id : Int) (game_label : String) (language : Language)
    (start_time end_time : Nat) : SubmitFullOut :=
  match lookup_intake st.play_to_intake play_id with
  | some intake_id =>
    let req := IntakeRequest.patch intake_id end_time
    match net req with
    | none =>
      ⟨⟨st.play_to_intake,
        IntakeEvent.submitFull play_id game_label language start_time end_time :: st.buffer⟩,
       [req], []⟩
    | some (submitted, _) =>
      ⟨⟨remove_intake st.play_to_intake play_id, st.buffer⟩,
       [req], [IntakeEmit.intakeEnded play_id submitted]⟩
  | none =>
    let req := IntakeRequest.post start_time (some end_time) game_label language.intake_str
    match net req with
    | none =>
      ⟨⟨st.play_to_intake,
        IntakeEvent.submitFull play_id game_label language start_time end_time :: st.buffer⟩,
       [req], []⟩
    | some (submitted, rowid) =>
      ⟨st, [req], [IntakeEmit.intakeFull play_id rowid submitted submitted]⟩

/-- Claim C3: for every `SubmitFull` handled by the intake submitter — if the
play id is in the map, only a PATCH with that intake id is sent, and on success
the entry is removed and `IntakeEnded` emitted; otherwise a POST carrying both
the start and end times is sent, and on success `IntakeFull` is emitted with
`submitted_start` and `submitted_end` the same instant. In both branches a
request failure re-queues the event at the front of the buffer for retry. -/
theorem claim_C3 (net : IntakeRequest → Option (Nat × String)) (st : IntakeState)
    (play_id : Int) (game_label : String) (language : Language)
    (start_time end_time : Nat) :
    (∀ intake_id, lookup_intake st.play_to_intake play_id = some intake_id →
      (handle_submit_full net st play_id game_label language start_time end_time).requests =
        [IntakeRequest.patch intake_id end_time] ∧
      (∀ sub r, net (IntakeRequest.patch intake_id end_time) = some (sub, r) →
        (handle_submit_full net st play_id game_label language start_time end_time).state =
          ⟨remove_intake st.play_to_intake play_id, st.buffer⟩ ∧
        lookup_intake (remove_intake st.play_to_intake play_id) play_id = none ∧
        (handle_submit_full net st play_id game_label language start_time end_time).emits =
          [IntakeEmit.intakeEnded play_id sub]) ∧
      (net (IntakeRequest.patch intake_id end_time) = none →
        (handle_submit_full net st play_id game_label language start_time end_time).state =
          ⟨st.play_to_intake,
            IntakeEvent.submitFull play_id game_label language start_time end_time ::
              st.buffer⟩ ∧
        (handle_submit_full net st play_id game_label language start_time end_time).emits =
          [])) ∧
    (lookup_intake st.play_to_intake play_id = none →
      (handle_submit_full net st play_id game_label language start_time end_time).requests =
        [IntakeRequest.post start_time (some end_time) game_label language.intake_str] ∧
      (∀ sub r, net (IntakeRequest.post start_time (some end_time) game_label
          language.intake_str) = some (sub, r) →
        (handle_submit_full net st play_id game_label language start_time end_time).emits =
          [IntakeEmit.intakeFull play_id r sub sub] ∧
        (handle_submit_full net st play_id game_label language start_time end_time).state =
          st) ∧
      (net (IntakeRequest.post start_time (some end_time) game_label
          language.intake_str) = none →
        (handle_submit_full net st play_id game_label language start_time end_time).state =
          ⟨st.play_to_intake,
            IntakeEvent.submitFull play_id game_label language start_time end_time ::
              st.buffer⟩ ∧
        (handle_submit_full net st play_id game_label language start_time end_time).emits =
          [])) := by
  constructor
  · intro intake_id hl
    refine ⟨?_, ?_, ?_⟩
    · simp only [handle_submit_full, hl]
      cases hn : net (IntakeRequest.patch intake_id end_time) <;> simp [hn]
    · intro sub r hn
      simp [handle_submit_full, hl, hn, lookup_remove_none]
    · intro hn
      simp [handle_submit_full, hl, hn]
  · intro hl
    refine ⟨?_, ?_, ?_⟩
    · simp only [handle_submit_full, hl]
      cases hn : net (IntakeRequest.post start_time (some end_time) game_label
          language.intake_str) <;> simp [hn]
    · intro sub r hn
      simp [handle_submit_full, hl, hn]
    · intro hn
      simp [handle_submit_full, hl, hn]

/-- Network oracle used to evaluate C3: every PATCH succeeds at instant 500 and
every POST succeeds at instant 600 with remote rowid `"R9"`. -/
def net_ok : IntakeRequest → Option (Nat × String)
  | IntakeRequest.patch _ _ => some (500, "")
  | IntakeRequest.post _ _ _ _ => some (600, "R9")

/-- Network oracle used to evaluate C3: every request fails. -/
def net_down : IntakeRequest → Option (Nat × String) :=
  fun _ => none

/-- Witness for C3, evaluating all four branch combinations: a map hit sends
only the PATCH and emits `IntakeEnded`; a map miss sends the POST with both
times and emits `IntakeFull` with one instant for both fields; and under a dead
network either branch re-queues the event at the front of the buffer. -/
theorem claim_C3_witness :
    ((handle_submit_full net_ok ⟨[(7, "R42")], []⟩ 7 "Game A" Language.English
        100 200).requests = [IntakeRequest.patch "R42" 200] ∧
      (handle_submit_full net_ok ⟨[(7, "R42")], []⟩ 7 "Game A" Language.English
        100 200).emits = [IntakeEmit.intakeEnded 7 500]) ∧
    ((handle_submit_full net_ok ⟨[], []⟩ 7 "Game A" Language.English
        100 200).requests =
          [IntakeRequest.post 100 (some 200) "Game A" Language.English.intake_str] ∧
      (handle_submit_full net_ok ⟨[], []⟩ 7 "Game A" Language.English
        100 200).emits = [IntakeEmit.intakeFull 7 "R9" 600 600]) ∧
    (handle_submit_full net_down ⟨[(7, "R42")], []⟩ 7 "Game A" Language.English
        100 200).state =
      ⟨[(7, "R42")], [IntakeEvent.submitFull 7 "Game A" Language.English 100 200]⟩ ∧
    (handle_submit_full net_down ⟨[], []⟩ 7 "Game A" Language.English
        100 200).state =
      ⟨[], [IntakeEvent.submitFull 7 "Game A" Language.English 100 200]⟩ :=
  ⟨⟨((claim_C3 net_ok ⟨[(7, "R42")], []⟩ 7 "Game A" Language.English 100 200).1
      "R42" rfl).1,
    (((claim_C3 net_ok ⟨[(7, "R42")], []⟩ 7 "Game A" Language.English 100 200).1
      "R42" rfl).2.1 500 "" rfl).2.2⟩,
   ⟨((claim_C3 net_ok ⟨[], []⟩ 7 "Game A" Language.English 100 200).2 rfl).1,
    (((claim_C3 net_ok ⟨[], []⟩ 7 "Game A" Language.English 100 200).2 rfl).2.1
      600 "R9" rfl).1⟩,
   (((claim_C3 net_down ⟨[(7, "R42")], []⟩ 7 "Game A" Language.English 100 200).1
      "R42" rfl).2.2 rfl).1,
   (((claim_C3 net_down ⟨[], []⟩ 7 "Game A" Language.English 100 200).2 rfl).2.2 rfl).1⟩

/-- The game columns `load_intake_backlog` reads through `game_for_path`. -/
structure GameInfo where
  language : Language
  label : String
deriving DecidableEq, Repr

/-- One row of the `plays` table (columns of database.rs). -/
structure PlayRow where
  rowid : Int
  game_path : String
  start_time : Nat
  end_time : Option Nat
  intake_id : Option String
  submitted_start : Option Nat
  submitted_end : Option Nat
  skipped : Bool
deriving DecidableEq, Repr

/-- The per-row mapping inside `Database::load_intake_backlog` (database.rs
lines 247-314): resolve the game (a missing mapping notifies an error and skips
the row), then match on `(end_time, intake_id)` in the source's order. -/
def backlog_row (games : String → Option GameInfo) (p : PlayRow) : Option IntakeEvent :=
  match games p.game_path with
  | none => none
  | some g =>
    match p.end_time, p.intake_id with
    | none, some _ => none
    | none, none =>
      some (IntakeEvent.submitStarted p.rowid g.label g.language p.start_time)
    | some e, some iid => some (IntakeEvent.submitEnded p.rowid iid e)
    | some e, none =>
      some (IntakeEvent.submitFull p.rowid g.label g.language p.start_time e)

/-- `Database::load_intake_backlog`: the SQL filter
`submitted_end IS NULL AND skipped = 0` followed by the per-row mapping. -/
def load_intake_backlog (games : String → Option GameInfo) (plays : List PlayRow) :
    List IntakeEvent :=
  (plays.filter fun p => p.submitted_end.isNone && !p.skipped).filterMap (backlog_row games)

/-- The backlog mapping as the spec's table states it: one submission event per
play where `submitted_end IS NULL AND skipped = false`, keyed on
`(end_time, intake_id)`: (null, null) ↦ SubmitStarted, (null, set) ↦ omitted,
(set, set) ↦ SubmitEnded, (set, null) ↦ SubmitFull. -/
def backlog_spec_row (games : String → Option GameInfo) (p : PlayRow) :
    Option IntakeEvent :=
  if p.submitted_end = none ∧ p.skipped = false then
    match games p.game_path, p.end_time, p.intake_id with
    | some g, none, none =>
      some (IntakeEvent.submitStarted p.rowid g.label g.language p.start_time)
    | some _, none, some _ => none
    | some _, some e, some iid => some (IntakeEvent.submitEnded p.rowid iid e)
    | some g, some e, none =>
      some (IntakeEvent.submitFull p.rowid g.label g.language p.start_time e)
    | none, _, _ => none
  else none

/-- The spec-side backlog: the per-row table applied to every play row. -/
def backlog_spec (games : String → Option GameInfo) (plays : List PlayRow) :
    List IntakeEvent :=
  plays.filterMap (backlog_spec_row games)

lemma load_cons (games : String → Option GameInfo) (q : PlayRow) (rest : List PlayRow) :
    load_intake_backlog games (q :: rest) =
      if q.submitted_end.isNone && !q.skipped then
        match backlog_row games q with
        | some ev => ev :: load_intake_backlog games rest
        | none => load_intake_backlog games rest
      else load_intake_backlog games rest := by
  unfold load_intake_backlog
  by_cases hq : q.submitted_end.isNone && !q.skipped
  · rw [if_pos hq, List.filter_cons, if_pos hq, List.filterMap_cons]
    cases backlog_row games q <;> rfl
  · rw [if_neg hq, List.filter_cons, if_neg hq]

lemma spec_cons (games : String → Option GameInfo) (q : PlayRow) (rest : List PlayRow) :
    backlog_spec games (q :: rest) =
      match backlog_spec_row games q with
      | some ev => ev :: backlog_spec games rest
      | none => backlog_spec games rest := by
  unfold backlog_spec
  rw [List.filterMap_cons]
  cases backlog_spec_row games q <;> rfl

lemma row_eq (games : String → Option GameInfo) (q : PlayRow)
    (hq : (games q.game_path).isSome) :
    backlog_spec_row games q =
      if q.submitted_end.isNone && !q.skipped then backlog_row games q else none := by
  obtain ⟨g, hgq⟩ := Option.isSome_iff_exists.mp hq
  cases hse : q.submitted_end <;> cases hsk : q.skipped <;>
    cases het : q.end_time <;> cases hit : q.intake_id <;>
      simp [backlog_spec_row, backlog_row, hse, hsk, het, hit, hgq]

/-- Claim C4: under the success path (every referenced game path resolves),
`load_intake_backlog` returns exactly the spec table's mapping — one event per
persisted play row with `submitted_end IS NULL AND skipped = false`, keyed on
`(end_time, intake_id)`, with `(null, set)` rows omitted and rows with
`submitted_end` set never returned — and its length equals the number of
qualifying rows that are not in the omitted `(null, set)` shape. -/
theorem claim_C4 (games : String → Option GameInfo) (plays : List PlayRow)
    (hg : ∀ p ∈ plays, (games p.game_path).isSome) :
    load_intake_backlog games plays = backlog_spec games plays ∧
    (load_intake_backlog games plays).length =
      (plays.filter fun p => p.submitted_end.isNone && !p.skipped &&
        !(p.end_time.isNone && p.intake_id.isSome)).length := by
  induction plays with
  | nil => exact ⟨rfl, rfl⟩
  | cons q rest ih =>
    obtain ⟨ihe, ihl⟩ := ih fun r hr => hg r (List.mem_cons_of_mem q hr)
    have hq := hg q (List.mem_cons_self q rest)
    obtain ⟨g, hgq⟩ := Option.isSome_iff_exists.mp hq
    constructor
    · rw [load_cons games q rest, spec_cons games q rest, row_eq games q hq]
      by_cases hqg : q.submitted_end.isNone && !q.skipped
      · rw [if_pos hqg, if_pos hqg]
        cases backlog_row games q <;> simp [ihe]
      · rw [if_neg hqg, if_neg hqg]
        simp [ihe]
    · rw [load_cons games q rest, List.filter_cons]
      by_cases hqg : q.submitted_end.isNone && !q.skipped
      · have hboth : q.submitted_end = none ∧ q.skipped = false := by simpa using hqg
        have hse := hboth.1
        have hskip := hboth.2
        rw [if_pos hqg]
        cases het : q.end_time with
        | none =>
          cases hit : q.intake_id with
          | some iid =>
            have hrow : backlog_row games q = none := by
              simp [backlog_row, hgq, het, hit]
            have hpred : (q.submitted_end.isNone && !q.skipped &&
                !(q.end_time.isNone && q.intake_id.isSome)) = false := by
              simp [het, hit]
            simp [hrow, hpred, ihl, hse, hskip]
          | none =>
            have hrow : backlog_row games q =
                some (IntakeEvent.submitStarted q.rowid g.label g.language q.start_time) := by
              simp [backlog_row, hgq, het, hit]
            have hpred : (q.submitted_end.isNone && !q.skipped &&
                !(q.end_time.isNone && q.intake_id.isSome)) = true := by
              simp [het, hit, hqg]
            simp [hrow, hpred, ihl, hse, hskip]
        | some e =>
          cases hit : q.intake_id with
          | some iid =>
            have hrow : backlog_row games q =
                some (IntakeEvent.submitEnded q.rowid iid e) := by
              simp [backlog_row, hgq, het, hit]
            have hpred : (q.submitted_end.isNone && !q.skipped &&
                !(q.end_time.isNone && q.intake_id.isSome)) = true := by
              simp [het, hit, hqg]
            simp [hrow, hpred, ihl, hse, hskip]
          | none =>
            have hrow : backlog_row games q =
                some (IntakeEvent.submitFull q.rowid g.label g.language q.start_time e) := by
              simp [backlog_row, hgq, het, hit]
            have hpred : (q.submitted_end.isNone && !q.skipped &&
                !(q.end_time.isNone && q.intake_id.isSome)) = true := by
              simp [het, hit, hqg]
            simp [hrow, hpred, ihl, hse, hskip]
      · rw [if_neg hqg]
        have hqg2 : (q.submitted_end.isNone && !q.skipped) = false := by
          rwa [Bool.not_eq_true] at hqg
        have hpred : (q.submitted_end.isNone && !q.skipped &&
            !(q.end_time.isNone && q.intake_id.isSome)) = false := by
          rw [hqg2, Bool.false_and]
        have hnp : ¬(q.submitted_end = none ∧ q.skipped = false) := by
          rintro ⟨h1, h2⟩
          simp [h1, h2] at hqg
        simp [hpred, ihl, hnp]

/-- Game resolver used to evaluate C4. -/
def games_fix : String → Option GameInfo :=
  fun p => if p = "roms/a.gba" then some ⟨Language.English, "Game A"⟩ else none

/-- Play rows exercising all four `(end_time, intake_id)` shapes of the backlog
table plus one already-acknowledged row. -/
def rows_fix : List PlayRow :=
  [⟨1, "roms/a.gba", 10, none, none, none, none, false⟩,
   ⟨2, "roms/a.gba", 20, none, some "R2", some 21, none, false⟩,
   ⟨3, "roms/a.gba", 30, some 31, some "R3", some 32, none, false⟩,
   ⟨4, "roms/a.gba", 40, some 41, none, none, none, false⟩,
   ⟨5, "roms/a.gba", 50, some 51, some "R5", some 52, some 53, false⟩]

/-- Witness for C4: on the five fixed rows the backlog equals the spec table —
SubmitStarted for row 1, nothing for the live row 2, SubmitEnded for row 3,
SubmitFull for row 4, nothing for the acknowledged row 5 — and has length 3. -/
theorem claim_C4_witness :
    load_intake_backlog games_fix rows_fix = backlog_spec games_fix rows_fix ∧
      (load_intake_backlog games_fix rows_fix).length = 3 :=
  ⟨(claim_C4 games_fix rows_fix (by decide)).1,
   (claim_C4 games_fix rows_fix (by decide)).2.trans (by decide)⟩

/-- Outcome of `req.send()` in `upload_path_to_directory`: either a response
arrived (with its HTTP status), or the send failed with a `reqwest` error whose
timeout / connect classification feeds `Online::observed_error`. -/
inductive SendOutcome
  | response (status : Nat)
  | failed (is_timeout is_connect : Bool)
deriving DecidableEq, Repr

/-- `StatusCode::is_success`: 2xx. -/
def status_is_success (status : Nat) : Bool :=
  200 ≤ status && status ≤ 299

/-- `Online::observed_is_online` (online.rs lines 9-25): a no-op when the new
value matches the component's flag, otherwise an `IsOnline` event is sent to the
orchestrator. The returned value is the emission, if any. -/
def observed_is_online (cur : Bool) (b : Bool) : Option Bool :=
  if cur = b then none else some b

/-- Observable outcome of the tail of `upload_path_to_directory` (uploader.rs
lines 92-113): which `observed_is_online` argument was invoked (if any), what
was emitted to the orchestrator after deduplication, and whether the upload
succeeded. -/
structure UploadObs where
  observation : Option Bool
  emitted : Option Bool
  ok : Bool
deriving DecidableEq, Repr

/-- The send-result handling of `upload_path_to_directory`: a send error invokes
`observed_error`, which reports offline only for a timeout or connect error, and
the upload fails; any response at all invokes `observed_online` first, and only
then is the status checked, a non-2xx status failing the upload. -/
def upload_send_result (cur : Bool) (r : SendOutcome) : UploadObs :=
  match r with
  | SendOutcome.failed t conn =>
    if t || conn then ⟨some false, observed_is_online cur false, false⟩
    else ⟨none, none, false⟩
  | SendOutcome.response status =>
    ⟨some true, observed_is_online cur true, status_is_success status⟩

/-- Claim C10: in `upload_path_to_directory`, receiving any HTTP response at all
marks the component online — `observed_online` is invoked before the status code
is checked, so a non-2xx rejection still reports the component online (emitting
`IsOnline(true)` exactly when it was offline) even though the upload fails; only
a send-level error (timeout or connect) can mark it offline. -/
theorem claim_C10 (cur : Bool) (status : Nat) (t conn : Bool) :
    (upload_send_result cur (SendOutcome.response status)).observation = some true ∧
    ((upload_send_result cur (SendOutcome.response status)).emitted = some true ↔
      cur = false) ∧
    (status_is_success status = false →
      (upload_send_result cur (SendOutcome.response status)).ok = false) ∧
    ((upload_send_result cur (SendOutcome.failed t conn)).observation = some false ↔
      (t || conn) = true) ∧
    (upload_send_result cur (SendOutcome.failed t conn)).observation ≠ some true := by
  refine ⟨rfl, ?_, ?_, ?_, ?_⟩
  · cases cur <;> simp [upload_send_result, observed_is_online]
  · intro h
    simp [upload_send_result, h]
  · cases t <;> cases conn <;> simp [upload_send_result]
  · cases t <;> cases conn <;> cases cur <;> simp [upload_send_result, observed_is_online]

/-- Witness for C10: a previously-offline component that receives a 404
rejection observes online (and would emit `IsOnline(true)`) while the upload
itself fails; a timeout-classified send error observes offline. -/
theorem claim_C10_witness :
    (upload_send_result false (SendOutcome.response 404)).observation = some true ∧
    (upload_send_result false (SendOutcome.response 404)).emitted = some true ∧
    (upload_send_result false (SendOutcome.response 404)).ok = false ∧
    (upload_send_result false (SendOutcome.failed true false)).observation = some false :=
  ⟨(claim_C10 false 404 true false).1,
   ((claim_C10 false 404 true false).2.1).mpr rfl,
   (claim_C10 false 404 true false).2.2.1 rfl,
   ((claim_C10 false 404 true false).2.2.2.1).mpr rfl⟩

/-- Modelled from the spec: the intake submitter's `ForceSync` event and its
handling are missing from src — the `Event` enum of src/src/intake.rs has no
`ForceSync` variant and its loop is not the priority-retry channel, yet
src/src/orchestrator.rs (`Event::ForceSync` arm) sends `intake::Event::ForceSync`,
so the channel-based intake implementation the orchestrator targets is not under
src/. Per spec §4.4, ForceSync is handled as: "set online=true, clear retry
counters. High-priority. ResetTimeout." Submission events are abstracted here;
only the ForceSync/IsOnline/StartShutdown handling the claim concerns is
modelled. -/
inductive IntakeChanEvent
  | submit (e : IntakeEvent)
  | forceSync
deriving DecidableEq, Repr

/-- Modelled from the spec: the component state of the channel-based intake
submitter that C7 concerns — its `is_online` flag. -/
structure IntakeChanComp where
  is_online : Bool
deriving DecidableEq, Repr

/-- Modelled from the spec: the intake submitter's high-priority set —
ForceSync, IsOnline and StartShutdown preempt; submissions do not. -/
def intake_chan_high_priority : IntakeChanEvent → Bool
  | IntakeChanEvent.forceSync => true
  | IntakeChanEvent.submit (IntakeEvent.isOnline _) => true
  | IntakeChanEvent.submit IntakeEvent.startShutdown => true
  | IntakeChanEvent.submit _ => false

/-- Modelled from the spec: the intake submitter's handler for the events C7
concerns. `ForceSync` sets the online flag and returns `ResetTimeout`;
`IsOnline(b)` stores the flag and continues; `StartShutdown` halts. -/
def intake_chan_handle (s : IntakeChanComp) : IntakeChanEvent → Action × IntakeChanComp
  | IntakeChanEvent.forceSync => (Action.ResetTimeout, ⟨true⟩)
  | IntakeChanEvent.submit (IntakeEvent.isOnline b) => (Action.Continue, ⟨b⟩)
  | IntakeChanEvent.submit IntakeEvent.startShutdown => (Action.Halt, s)
  | IntakeChanEvent.submit _ => (Action.Continue, s)

/-- The spec-modelled intake submitter plugged into the real priority-retry
channel embedding. -/
def intake_handlers : Handlers IntakeChanEvent IntakeChanComp :=
  ⟨fun s => s.is_online, intake_chan_high_priority, intake_chan_handle⟩

/-- The queues the orchestrator's `Event::ForceSync` arm fans a ForceSync out to
(orchestrator.rs lines 621-631). -/
inductive UploaderQueue
  | intakeQ
  | screenshotsQ
  | savesQ
deriving DecidableEq, Repr

/-- The `Event::ForceSync` arm of `Orchestrator::start`: send ForceSync to the
intake, screenshots and saves queues, in that order. -/
def orchestrator_force_sync_fanout : List UploaderQueue :=
  [UploaderQueue.intakeQ, UploaderQueue.screenshotsQ, UploaderQueue.savesQ]

/-- Claim C7: the orchestrator's ForceSync fanout reaches the intake queue; the
intake submitter treats `ForceSync` as high-priority; its handler sets
`is_online` to true and returns `ResetTimeout`; and, plugged into the
priority-retry channel, a step receiving `ForceSync` leaves the component online
with both retry counters cleared, resuming processing. -/
theorem claim_C7 (s : IntakeChanComp) (c : ChanState IntakeChanEvent IntakeChanComp)
    (i : StepIn IntakeChanEvent) (hh : c.halted = false) (hp : c.priority_event = none)
    (hr : i.recv = Recv.arrived IntakeChanEvent.forceSync) :
    UploaderQueue.intakeQ ∈ orchestrator_force_sync_fanout ∧
    intake_chan_high_priority IntakeChanEvent.forceSync = true ∧
    intake_chan_handle s IntakeChanEvent.forceSync = (Action.ResetTimeout, ⟨true⟩) ∧
    (step intake_handlers c i).1.comp.is_online = true ∧
    (step intake_handlers c i).1.priority_retry = none ∧
    (step intake_handlers c i).1.normal_retry = none := by
  obtain ⟨wu, hstep⟩ : ∃ wu, step intake_handlers c i =
      dispatch_arrival intake_handlers c i IntakeChanEvent.forceSync wu := by
    cases hb : c.buffer with
    | nil => exact ⟨none, step_arrived_nil intake_handlers c i hh hp hb hr⟩
    | cons f rest =>
      cases hd : c.retry_deadline with
      | some d => exact ⟨some (chosen_deadline intake_handlers c d),
          step_arrived_dl intake_handlers c i hh hp hb hd hr⟩
      | none => exact ⟨none, step_arrived_nodl intake_handlers c i hh hp hb hd hr⟩
  refine ⟨by decide, rfl, rfl, ?_, ?_, ?_⟩ <;>
    · rw [hstep]
      simp [dispatch_arrival, intake_handlers, intake_chan_high_priority, intake_chan_handle]

/-- Witness for C7: an offline intake component with no stored priority event
receives `ForceSync`; after the step it is online and both counters are clear. -/
theorem claim_C7_witness :
    UploaderQueue.intakeQ ∈ orchestrator_force_sync_fanout ∧
    intake_chan_high_priority IntakeChanEvent.forceSync = true ∧
    intake_chan_handle ⟨false⟩ IntakeChanEvent.forceSync = (Action.ResetTimeout, ⟨true⟩) ∧
    (step intake_handlers ⟨none, [], none, none, none, ⟨false⟩, false⟩
      ⟨Recv.arrived IntakeChanEvent.forceSync, 0, 0⟩).1.comp.is_online = true ∧
    (step intake_handlers ⟨none, [], none, none, none, ⟨false⟩, false⟩
      ⟨Recv.arrived IntakeChanEvent.forceSync, 0, 0⟩).1.priority_retry = none ∧
    (step intake_handlers ⟨none, [], none, none, none, ⟨false⟩, false⟩
      ⟨Recv.arrived IntakeChanEvent.forceSync, 0, 0⟩).1.normal_retry = none :=
  claim_C7 ⟨false⟩ ⟨none, [], none, none, none, ⟨false⟩, false⟩
    ⟨Recv.arrived IntakeChanEvent.forceSync, 0, 0⟩ rfl rfl rfl

end StudySync
